import Mathlib

/-!
Verification development for the ticker pipeline (`ticker.js`), the navigation
drawer controller (`drawer.js`) and the Steam snapshot batch script
(`steam-fetch.js`).

The JavaScript sources are shallowly embedded: JS numbers are modelled by
`JsNum` (an exact rational for finite doubles, plus the three non-finite
states `+Infinity`, `-Infinity`, `NaN`; rounding of `float64` arithmetic is
not modelled since no property here depends on it), strings are Lean
`String`s, thrown exceptions become `Except` errors, and the network / DOM
environments become explicit function arguments.
-/

/-- Model of a JavaScript number: a finite double is modelled by an exact
rational, and the non-finite states `Infinity`, `-Infinity` and `NaN` are
explicit constructors. -/
inductive JsNum where
  | fin : ℚ → JsNum
  | posInf : JsNum
  | negInf : JsNum
  | nan : JsNum
deriving DecidableEq, Repr

namespace JsNum

/-- `Number.isFinite`. -/
def isFinite : JsNum → Bool
  | fin _ => true
  | _ => false

/-- JS subtraction `a - b` (IEEE-754 without rounding: exact on finite
operands). -/
def sub : JsNum → JsNum → JsNum
  | fin a, fin b => fin (a - b)
  | fin _, posInf => negInf
  | fin _, negInf => posInf
  | posInf, fin _ => posInf
  | negInf, fin _ => negInf
  | posInf, negInf => posInf
  | negInf, posInf => negInf
  | posInf, posInf => nan
  | negInf, negInf => nan
  | nan, _ => nan
  | _, nan => nan

/-- JS multiplication `a * b`. -/
def mul : JsNum → JsNum → JsNum
  | fin a, fin b => fin (a * b)
  | fin a, posInf => if a > 0 then posInf else if a < 0 then negInf else nan
  | fin a, negInf => if a > 0 then negInf else if a < 0 then posInf else nan
  | posInf, fin b => if b > 0 then posInf else if b < 0 then negInf else nan
  | negInf, fin b => if b > 0 then negInf else if b < 0 then posInf else nan
  | posInf, posInf => posInf
  | negInf, negInf => posInf
  | posInf, negInf => negInf
  | negInf, posInf => negInf
  | nan, _ => nan
  | _, nan => nan

/-- JS division `a / b`; division by zero yields a signed infinity, and
`0 / 0` yields `NaN`. -/
def div : JsNum → JsNum → JsNum
  | fin a, fin b =>
      if b = 0 then (if a > 0 then posInf else if a < 0 then negInf else nan)
      else fin (a / b)
  | fin _, posInf => fin 0
  | fin _, negInf => fin 0
  | posInf, fin _ => posInf
  | negInf, fin _ => negInf
  | posInf, posInf => nan
  | posInf, negInf => nan
  | negInf, posInf => nan
  | negInf, negInf => nan
  | nan, _ => nan
  | _, nan => nan

/-- `Math.abs`. -/
def abs : JsNum → JsNum
  | fin a => fin |a|
  | posInf => posInf
  | negInf => posInf
  | nan => nan

/-- The JS comparison `a >= b`: any comparison involving `NaN` is `false`. -/
def jsGe : JsNum → JsNum → Bool
  | fin a, fin b => decide (b ≤ a)
  | fin _, posInf => false
  | fin _, negInf => true
  | posInf, fin _ => true
  | negInf, fin _ => false
  | posInf, posInf => true
  | posInf, negInf => true
  | negInf, posInf => false
  | negInf, negInf => true
  | nan, _ => false
  | _, nan => false

end JsNum

/-- One observation of a FRED time series, as built by `parseFredCsv`:
`{ date: parts[0], value: v }` with `v` a finite number. -/
structure Point where
  date : String
  value : ℚ
deriving DecidableEq, Repr

/-- The pair returned by `latestPair`. -/
structure LatestPair where
  latest : Option Point
  previous : Option Point
deriving DecidableEq, Repr

/-- `latestPair` from `ticker.js`:
```js
if (!pts.length) return { latest: null, previous: null };
return { latest: pts[pts.length - 1],
         previous: pts.length > 1 ? pts[pts.length - 2] : null };
``` -/
def latestPair (pts : List Point) : LatestPair :=
  if pts.length = 0 then { latest := none, previous := none }
  else
    { latest := pts.get? (pts.length - 1)
      previous := if pts.length > 1 then pts.get? (pts.length - 2) else none }

/-- The percent-change expression inlined in `loadTicker`
(`pair.previous ? ((val - pair.previous.value) / Math.abs(pair.previous.value)) * 100 : null`),
named `percentChange` as in the specification.  `none` models JS `null`. -/
def percentChange (current : JsNum) (previous : Option JsNum) : Option JsNum :=
  match previous with
  | none => none
  | some p => some (((current.sub p).div p.abs).mul (JsNum.fin 100))

/-- Direction of a rendered tick. -/
inductive Dir where
  | up
  | down
deriving DecidableEq, Repr

/-- The direction expression inlined at the `updateSpans` call in `loadTicker`:
`pct === null ? null : (pct >= 0 ? 'up' : 'down')`. -/
def tickDirection (pct : Option JsNum) : Option Dir :=
  match pct with
  | none => none
  | some p => some (if p.jsGe (JsNum.fin 0) then Dir.up else Dir.down)

/-! ### Model of `Number(string)` (ECMAScript string-to-number coercion)

Faithful to the `StringNumericLiteral` grammar: whitespace is trimmed, the
empty remainder is `0`, then a signed decimal literal (with optional fraction
and exponent), `Infinity`, or an unsigned hex/octal/binary literal.  Anything
else is `NaN`.  The exact rational value is kept (no `float64` rounding). -/

/-- ECMAScript `StrWhiteSpaceChar` (the white space and line terminator
characters ignored by `Number(string)`). -/
def isStrWhite (c : Char) : Bool :=
  c = ' ' ∨ c = '\t' ∨ c = '\n' ∨ c = '\r' ∨ c = '\x0b' ∨ c = '\x0c' ∨
  c.toNat = 0xA0 ∨ c.toNat = 0xFEFF ∨ c.toNat = 0x2028 ∨ c.toNat = 0x2029

/-- Value of a list of decimal digit characters. -/
def digitsToNat (ds : List Char) : Nat :=
  ds.foldl (fun n c => 10 * n + (c.toNat - 48)) 0

/-- Value of one hexadecimal digit character, if it is one. -/
def hexDigitVal (c : Char) : Option Nat :=
  if '0' ≤ c ∧ c ≤ '9' then some (c.toNat - 48)
  else if 'a' ≤ c ∧ c ≤ 'f' then some (c.toNat - 87)
  else if 'A' ≤ c ∧ c ≤ 'F' then some (c.toNat - 55)
  else none

/-- Value of a list of digit characters in base `b`, failing when empty or
when some character is not a digit of that base. -/
def radixVal (b : Nat) (ds : List Char) : Option Nat :=
  match ds with
  | [] => none
  | _ =>
    ds.foldl
      (fun acc c =>
        match acc, hexDigitVal c with
        | some n, some v => if v < b then some (b * n + v) else none
        | _, _ => none)
      (some 0)

/-- Exponent suffix of a decimal literal: optional sign then at least one
digit, consuming the whole remainder. -/
def parseExpSuffix (mant : ℚ) (rest : List Char) : Option ℚ :=
  let (sgn, ds) : ℤ × List Char :=
    match rest with
    | '+' :: t => (1, t)
    | '-' :: t => (-1, t)
    | t => (1, t)
  if ds ≠ [] ∧ ds.all (·.isDigit) then
    some (mant * (10 : ℚ) ^ (sgn * (digitsToNat ds : ℤ)))
  else none

/-- Unsigned decimal literal `digits ['.' digits] [exp]` or `'.' digits [exp]`,
consuming the whole input; `none` means the input is not such a literal. -/
def parseUnsignedDec (cs : List Char) : Option ℚ :=
  let (ip, r1) := cs.span (·.isDigit)
  let (fp, r2) : List Char × List Char :=
    match r1 with
    | '.' :: t => t.span (·.isDigit)
    | _ => ([], r1)
  if ip = [] ∧ fp = [] then none
  else
    let mant : ℚ := (digitsToNat ip : ℚ) + (digitsToNat fp : ℚ) / (10 : ℚ) ^ fp.length
    match r2 with
    | [] => some mant
    | 'e' :: rest => parseExpSuffix mant rest
    | 'E' :: rest => parseExpSuffix mant rest
    | _ => none

/-- Signed decimal part of the grammar: optional sign, then `Infinity` or an
unsigned decimal literal. -/
def signedDec (cs : List Char) : JsNum :=
  let (neg, body) : Bool × List Char :=
    match cs with
    | '+' :: t => (false, t)
    | '-' :: t => (true, t)
    | t => (false, t)
  if body = "Infinity".data then (if neg then JsNum.negInf else JsNum.posInf)
  else
    match parseUnsignedDec body with
    | some q => JsNum.fin (if neg then -q else q)
    | none => JsNum.nan

/-- `Number(s)` for a string `s`. -/
def jsNumber (s : String) : JsNum :=
  let cs := ((s.data.dropWhile isStrWhite).reverse.dropWhile isStrWhite).reverse
  match cs with
  | [] => JsNum.fin 0
  | '0' :: x :: rest =>
    if x = 'x' ∨ x = 'X' then
      match radixVal 16 rest with
      | some n => JsNum.fin n
      | none => JsNum.nan
    else if x = 'o' ∨ x = 'O' then
      match radixVal 8 rest with
      | some n => JsNum.fin n
      | none => JsNum.nan
    else if x = 'b' ∨ x = 'B' then
      match radixVal 2 rest with
      | some n => JsNum.fin n
      | none => JsNum.nan
    else signedDec cs
  | _ => signedDec cs

/-! ### The delimited time-series (FRED CSV) parser -/

/-- Model of the split on `/\r?\n/` used by `parseFredCsv`: the delimiter is
`\r\n` or a bare `\n`; a lone `\r` does not split. -/
def splitLinesCh : List Char → List (List Char)
  | [] => [[]]
  | c :: rest =>
    if c = '\n' then [] :: splitLinesCh rest
    else if c = '\r' then
      match rest with
      | '\n' :: rest2 => [] :: splitLinesCh rest2
      | [] => [['\r']]
      | c2 :: rest2 =>
        match splitLinesCh (c2 :: rest2) with
        | [] => [['\r']]
        | l :: ls => ('\r' :: l) :: ls
    else
      match splitLinesCh rest with
      | [] => [[c]]
      | l :: ls => (c :: l) :: ls

/-- Join lines with `\n` separators (the inverse of the line split on inputs
whose lines contain no line terminators). -/
def joinLines : List (List Char) → List Char
  | [] => []
  | [l] => l
  | l :: ls => l ++ '\n' :: joinLines ls

/-- Model of `line.split(',')`: split a character list at every comma. -/
def splitOnComma : List Char → List (List Char)
  | [] => [[]]
  | c :: rest =>
    if c = ',' then [] :: splitOnComma rest
    else
      match splitOnComma rest with
      | [] => [[c]]
      | l :: ls => (c :: l) :: ls

/-- Per-line body of the `map` in `parseFredCsv`: split on commas, require at
least two fields, keep the line only when `Number(parts[1])` is finite. -/
def parseFredLine (line : String) : Option Point :=
  let parts := (splitOnComma line.data).map fun l => String.mk l
  if parts.length < 2 then none
  else
    match jsNumber (parts.getD 1 "") with
    | JsNum.fin v => some { date := parts.getD 0 "", value := v }
    | _ => none

/-- `parseFredCsv` from `ticker.js`:
```js
var lines = csv.split(/\r?\n/).filter(Boolean);
if (lines.length < 2) return [];
return lines.slice(1).map(...).filter(Boolean);
``` -/
def parseFredCsv (csv : String) : List Point :=
  let lines := ((splitLinesCh csv.data).map fun l => String.mk l).filter (· ≠ "")
  if lines.length < 2 then []
  else (lines.drop 1).filterMap parseFredLine

/-! ### Payload decoder (`decodeDataPayload`) and its library collaborators

`atob` models the WHATWG forgiving-base64 decoder (ASCII whitespace removed,
optional `=` padding, strict alphabet, decode to Latin-1 characters); a
decoding failure is the thrown `InvalidCharacterError`.  `decodeURIComponentJs`
models ECMAScript `decodeURIComponent`: each `%XX` escape contributes an
octet, multi-octet UTF-8 sequences must be formed entirely of escapes and be
valid (no overlong forms, surrogates or out-of-range values); a failure is the
thrown `URIError`. -/

/-- Value of one base64 alphabet character. -/
def base64Val (c : Char) : Option Nat :=
  if 'A' ≤ c ∧ c ≤ 'Z' then some (c.toNat - 65)
  else if 'a' ≤ c ∧ c ≤ 'z' then some (c.toNat - 71)
  else if '0' ≤ c ∧ c ≤ '9' then some (c.toNat + 4)
  else if c = '+' then some 62
  else if c = '/' then some 63
  else none

/-- Reassemble base64 sixtet values into octets (final group of 2 or 3
sixtets yields 1 or 2 octets). -/
def b64Bytes : List Nat → List Nat
  | a :: b :: c :: d :: rest =>
    (a * 4 + b / 16) :: ((b % 16) * 16 + c / 4) :: ((c % 4) * 64 + d) :: b64Bytes rest
  | [a, b] => [a * 4 + b / 16]
  | [a, b, c] => [a * 4 + b / 16, (b % 16) * 16 + c / 4]
  | _ => []

/-- `atob`, the forgiving-base64 decoder. -/
def atob (s : String) : Except String String :=
  let cs := s.data.filter fun c =>
    ¬ (c = ' ' ∨ c = '\t' ∨ c = '\n' ∨ c = '\x0c' ∨ c = '\r')
  let cs :=
    if cs.length % 4 = 0 then
      match cs.reverse with
      | '=' :: '=' :: r => r.reverse
      | '=' :: r => r.reverse
      | _ => cs
    else cs
  if cs.length % 4 = 1 then Except.error "InvalidCharacterError"
  else
    match cs.mapM base64Val with
    | none => Except.error "InvalidCharacterError"
    | some sixtets => Except.ok (String.mk ((b64Bytes sixtets).map Char.ofNat))

/-- One item of a percent-decoded string: a plain character or the octet of a
`%XX` escape. -/
abbrev UriItem := Char ⊕ Nat

/-- First pass of `decodeURIComponent`: every `%` must be followed by two hex
digits and becomes an octet; other characters pass through. -/
def percentItems : List Char → Except String (List UriItem)
  | [] => Except.ok []
  | '%' :: a :: b :: rest =>
    match hexDigitVal a, hexDigitVal b with
    | some ha, some hb => (percentItems rest).map (Sum.inr (16 * ha + hb) :: ·)
    | _, _ => Except.error "URIError"
  | ['%'] => Except.error "URIError"
  | ['%', _] => Except.error "URIError"
  | c :: rest => (percentItems rest).map (Sum.inl c :: ·)

/-- Admissible second octet of a three-octet UTF-8 sequence led by `b1`
(excludes overlong forms after `E0` and surrogates after `ED`). -/
def utf8Second3 (b1 b2 : Nat) : Bool :=
  if b1 = 224 then 160 ≤ b2 ∧ b2 < 192
  else if b1 = 237 then 128 ≤ b2 ∧ b2 < 160
  else 128 ≤ b2 ∧ b2 < 192

/-- Admissible second octet of a four-octet UTF-8 sequence led by `b1`
(excludes overlong forms after `F0` and values beyond `U+10FFFF` after `F4`). -/
def utf8Second4 (b1 b2 : Nat) : Bool :=
  if b1 = 240 then 144 ≤ b2 ∧ b2 < 192
  else if b1 = 244 then 128 ≤ b2 ∧ b2 < 144
  else 128 ≤ b2 ∧ b2 < 192

/-- A UTF-8 continuation octet `10xxxxxx`. -/
def utf8Cont (b : Nat) : Bool := 128 ≤ b ∧ b < 192

/-- Second pass of `decodeURIComponent`: octets with the high bit set must
start a valid UTF-8 sequence whose continuation octets are themselves
escape-produced octets. -/
def decodeUriItems : List UriItem → Except String (List Char)
  | [] => Except.ok []
  | Sum.inl c :: rest => (decodeUriItems rest).map (c :: ·)
  | Sum.inr b1 :: rest =>
    if b1 < 128 then (decodeUriItems rest).map (Char.ofNat b1 :: ·)
    else if b1 < 194 then Except.error "URIError"
    else if b1 < 224 then
      match rest with
      | Sum.inr b2 :: r2 =>
        if utf8Cont b2 then
          (decodeUriItems r2).map (Char.ofNat ((b1 - 192) * 64 + (b2 - 128)) :: ·)
        else Except.error "URIError"
      | _ => Except.error "URIError"
    else if b1 < 240 then
      match rest with
      | Sum.inr b2 :: Sum.inr b3 :: r3 =>
        if utf8Second3 b1 b2 ∧ utf8Cont b3 then
          (decodeUriItems r3).map
            (Char.ofNat ((b1 - 224) * 4096 + (b2 - 128) * 64 + (b3 - 128)) :: ·)
        else Except.error "URIError"
      | _ => Except.error "URIError"
    else if b1 < 245 then
      match rest with
      | Sum.inr b2 :: Sum.inr b3 :: Sum.inr b4 :: r4 =>
        if utf8Second4 b1 b2 ∧ utf8Cont b3 ∧ utf8Cont b4 then
          (decodeUriItems r4).map
            (Char.ofNat ((b1 - 240) * 262144 + (b2 - 128) * 4096 +
              (b3 - 128) * 64 + (b4 - 128)) :: ·)
        else Except.error "URIError"
      | _ => Except.error "URIError"
    else Except.error "URIError"

/-- `decodeURIComponent`. -/
def decodeURIComponentJs (s : String) : Except String String :=
  match percentItems s.data with
  | Except.error e => Except.error e
  | Except.ok items =>
    match decodeUriItems items with
    | Except.error e => Except.error e
    | Except.ok cs => Except.ok (String.mk cs)

/-- Index of the first `,` in a character list (`String.indexOf(',')`). -/
def findComma : List Char → Option Nat
  | [] => none
  | c :: rest => if c = ',' then some 0 else (findComma rest).map (· + 1)

/-- `needle` occurs as a contiguous substring of `hay`
(`hay.indexOf(needle) !== -1`). -/
def containsSub (needle hay : List Char) : Bool :=
  (List.range (hay.length + 1)).any fun i => needle.isPrefixOf (hay.drop i)

/-- `decodeDataPayload` from `ticker.js`:
```js
if (!contents) return '';
if (contents.indexOf('data:') !== 0) return contents;
var comma = contents.indexOf(',');
if (comma === -1) return contents;
var metadata = contents.slice(0, comma);
var payload = contents.slice(comma + 1);
if (metadata.indexOf(';base64') !== -1) return atob(payload);
return decodeURIComponent(payload);
```
An `Except.error` models an exception thrown out of `atob` /
`decodeURIComponent`. -/
def decodeDataPayload (contents : String) : Except String String :=
  if contents = "" then Except.ok ""
  else if ¬ ("data:".data.isPrefixOf contents.data) then Except.ok contents
  else
    match findComma contents.data with
    | none => Except.ok contents
    | some comma =>
      let metadata := String.mk (contents.data.take comma)
      let payload := String.mk (contents.data.drop (comma + 1))
      if containsSub ";base64".data metadata.data then atob payload
      else decodeURIComponentJs payload

/-! ### Resilient fetcher: the CORS proxy fallback chain

The network is modelled as an environment that fixes, for one URL, the
outcome of each transport: an `Except.error` is a thrown network error, and
an `ok` response carries the HTTP `ok` flag, the status code and the body.
For the AllOrigins "get" transport the body is already JSON-parsed: `json` is
the outcome of `r.json()` and carries the `contents` field (`none` when the
field is absent). -/

/-- A fetch response as seen by `fetchViaCodetabs` / `fetchViaAllOriginsRaw`. -/
structure JsResponse where
  ok : Bool
  status : Nat
  body : String

/-- A fetch response as seen by `fetchViaAllOriginsGet`. -/
structure AoGetResponse where
  ok : Bool
  status : Nat
  json : Except String (Option String)

/-- `fetchViaCodetabs`: direct relay; a non-ok status throws
`Codetabs HTTP <status>`. -/
def fetchViaCodetabs (r : Except String JsResponse) : Except String String :=
  match r with
  | Except.error e => Except.error e
  | Except.ok resp =>
    if resp.ok then Except.ok resp.body
    else Except.error ("Codetabs HTTP " ++ toString resp.status)

/-- `fetchViaAllOriginsGet`: wrapped relay; the `contents` field is run
through `decodeDataPayload` (`p.contents || ''`), and an empty decoded result
throws `AllOrigins/get empty`. -/
def fetchViaAllOriginsGet (r : Except String AoGetResponse) : Except String String :=
  match r with
  | Except.error e => Except.error e
  | Except.ok resp =>
    if ¬ resp.ok then Except.error ("AllOrigins/get HTTP " ++ toString resp.status)
    else
      match resp.json with
      | Except.error e => Except.error e
      | Except.ok contents =>
        match decodeDataPayload (contents.getD "") with
        | Except.error e => Except.error e
        | Except.ok d =>
          if d = "" then Except.error "AllOrigins/get empty" else Except.ok d

/-- `fetchViaAllOriginsRaw`: raw relay; a non-ok status throws
`AllOrigins/raw HTTP <status>`. -/
def fetchViaAllOriginsRaw (r : Except String JsResponse) : Except String String :=
  match r with
  | Except.error e => Except.error e
  | Except.ok resp =>
    if resp.ok then Except.ok resp.body
    else Except.error ("AllOrigins/raw HTTP " ++ toString resp.status)

/-- The three transport paths, in chain order. -/
inductive ProxyPath where
  | codetabs
  | aoGet
  | aoRaw
deriving DecidableEq, Repr

/-- Network environment for one URL: the outcome each transport would
produce. -/
structure FetchEnv where
  codetabs : Except String JsResponse
  aoGet : Except String AoGetResponse
  aoRaw : Except String JsResponse

/-- `fetchText` from `ticker.js`, instrumented with the list of transports
attempted, in order:
```js
try { return await fetchViaCodetabs(url); }
catch (_) {
  try { return await fetchViaAllOriginsGet(url); }
  catch (__) { return fetchViaAllOriginsRaw(url); }
}
``` -/
def fetchTextLog (env : FetchEnv) : Except String String × List ProxyPath :=
  match fetchViaCodetabs env.codetabs with
  | Except.ok t => (Except.ok t, [ProxyPath.codetabs])
  | Except.error _ =>
    match fetchViaAllOriginsGet env.aoGet with
    | Except.ok t => (Except.ok t, [ProxyPath.codetabs, ProxyPath.aoGet])
    | Except.error _ =>
      (fetchViaAllOriginsRaw env.aoRaw,
       [ProxyPath.codetabs, ProxyPath.aoGet, ProxyPath.aoRaw])

/-- `fetchText`: the value returned (or error thrown) by the chain. -/
def fetchText (env : FetchEnv) : Except String String :=
  (fetchTextLog env).1

/-- `fetchFred`: fetch the CSV for one series id and parse it; an empty
series throws `No data`. -/
def fetchFred (env : FetchEnv) : Except String (List Point) :=
  match fetchText env with
  | Except.error e => Except.error e
  | Except.ok csv =>
    let pts := parseFredCsv csv
    if pts.length = 0 then Except.error "No data" else Except.ok pts

/-! ### Render sink and orchestrator

The DOM is modelled as a map from the `data-ticker` binding attribute to the
list of matching span states; `document.toLocaleString` number formatting is
locale-dependent and is passed in as an abstract formatting function
`fmtNum : value → decimals → string`. -/

/-- One entry of the `fredTickers` configuration table. -/
structure TickerCfg where
  attr : String
  fred : String
  label : String
  decimals : Nat
  suffix : Option String
deriving DecidableEq, Repr

/-- The `fredTickers` table from `ticker.js`. -/
def fredTickers : List TickerCfg :=
  [ { attr := "SP500", fred := "SP500", label := "S&P 500", decimals := 0, suffix := none },
    { attr := "NASDAQ", fred := "NASDAQCOM", label := "NASDAQ", decimals := 0, suffix := none },
    { attr := "10Y", fred := "DGS10", label := "10Y YIELD", decimals := 3, suffix := some "%" },
    { attr := "GOLD", fred := "GOLDAMGBD228NLBM", label := "GOLD", decimals := 2, suffix := none },
    { attr := "VIX", fred := "VIXCLS", label := "VIX", decimals := 2, suffix := none },
    { attr := "EURUSD", fred := "DEXUSEU", label := "EUR/USD", decimals := 4, suffix := none },
    { attr := "CRUDE", fred := "DCOILWTICO", label := "WTI CRUDE", decimals := 2, suffix := none },
    { attr := "FEDFUNDS", fred := "FEDFUNDS", label := "FED FUNDS", decimals := 2, suffix := some "%" } ]

/-- The state of one span bound to a ticker: its text content and whether
each of the two directional classes is present. -/
structure SpanState where
  text : String
  up : Bool
  down : Bool
deriving DecidableEq, Repr

/-- The DOM surface the ticker touches: the spans carrying each binding
attribute. -/
abbrev Dom := String → List SpanState

/-- `updateSpans`: set the text of every span bound to `attr`, clear both
directional classes, then add the one matching `direction` if non-null. -/
def updateSpans (attr text : String) (direction : Option Dir) (dom : Dom) : Dom :=
  fun a =>
    if a = attr then
      (dom a).map fun _ =>
        { text := text
          up := decide (direction = some Dir.up)
          down := decide (direction = some Dir.down) }
    else dom a

/-- The nonnegative rational carried by a finite `JsNum` (used only where
the source has already checked `Number.isFinite`). -/
def JsNum.toQ : JsNum → ℚ
  | JsNum.fin q => q
  | _ => 0

/-- Model of `x.toFixed(2)` for a nonnegative finite value: round half up to
two decimals and print them. -/
def toFixed2 (q : ℚ) : String :=
  let n : ℤ := ⌊q * 100 + 1 / 2⌋
  toString (n / 100) ++ "." ++ (if n % 100 < 10 then "0" else "") ++ toString (n % 100)

/-- `fmtTicker` from `ticker.js`: label, locale-formatted value, optional
suffix, and — only when `pct` is non-null and finite — a directional glyph
with the absolute percent change to two decimals. -/
def fmtTicker (fmtNum : ℚ → Nat → String) (label : String) (value : ℚ)
    (decimals : Nat) (suffix : Option String) (pct : Option JsNum) : String :=
  let f := fmtNum value decimals
  let t := label ++ " " ++ f
  let t :=
    match suffix with
    | some s => if s = "" then t else t ++ s
    | none => t
  match pct with
  | some p =>
    if p.isFinite then
      t ++ " " ++ (if p.jsGe (JsNum.fin 0) then "▲" else "▼") ++
        toFixed2 p.abs.toQ ++ "%"
    else t
  | none => t

/-- The body of the `results.forEach` in `loadTicker` for one settled
outcome: a rejected fetch is skipped, a fulfilled one renders its latest
value with the derived percent change and direction. -/
def renderOneResult (fmtNum : ℚ → Nat → String) (dom : Dom)
    (r : TickerCfg × Except String (List Point)) : Dom :=
  match r.2 with
  | Except.error _ => dom
  | Except.ok pts =>
    let pair := latestPair pts
    match pair.latest with
    | none => dom
    | some latest =>
      let val := latest.value
      let pct := percentChange (JsNum.fin val)
        (pair.previous.map fun p => JsNum.fin p.value)
      updateSpans r.1.attr
        (fmtTicker fmtNum r.1.label val r.1.decimals r.1.suffix pct)
        (tickDirection pct) dom

/-- The full `results.forEach` render pass over the settled outcomes. -/
def renderFredResults (fmtNum : ℚ → Nat → String)
    (results : List (TickerCfg × Except String (List Point))) (dom : Dom) : Dom :=
  results.foldl (renderOneResult fmtNum) dom

/-- The FRED portion of `loadTicker`: every configured ticker is fetched
(`Promise.allSettled` pairs each config with its settled outcome, the network
environment `net` fixing the outcome per series id), then the settled results
are rendered. -/
def loadTickerFred (fmtNum : ℚ → Nat → String) (net : String → FetchEnv)
    (dom : Dom) : Dom :=
  renderFredResults fmtNum
    (fredTickers.map fun cfg => (cfg, fetchFred (net cfg.fred))) dom

/-! ### The Steam snapshot batch script (`steam-fetch.js`)

The script's effects are modelled by an environment fixing the credentials,
the three upstream responses and the writability of the output path; the
outcome is the process exit code and the JSON document written, if any. -/

/-- One game record as returned by the Steam API (absent numeric fields are
`none`, matching the `|| 0` guards; playtimes are in minutes). -/
structure SteamGame where
  appid : Nat
  name : String
  playtime_forever : Option Nat
  playtime_2weeks : Option Nat
  img_icon_url : Option String
deriving DecidableEq, Repr

/-- `GetOwnedGames` response body (`owned.games`, `owned.game_count`). -/
structure OwnedResponse where
  games : Option (List SteamGame)
  game_count : Option Nat

/-- `GetRecentlyPlayedGames` response body. -/
structure RecentResponse where
  games : Option (List SteamGame)

/-- `GetPlayerSummaries` player record. -/
structure PlayerProfile where
  personaname : Option String
  profileurl : Option String
  avatarmedium : Option String

/-- A JSON document, used to state the shape of the written snapshot. -/
inductive Json where
  | str : String → Json
  | num : ℚ → Json
  | arr : List Json → Json
  | obj : List (String × Json) → Json

/-- The keys of a top-level JSON object. -/
def Json.topKeys : Json → List String
  | Json.obj kvs => kvs.map (·.1)
  | _ => []

/-- `Math.round`: round half toward positive infinity. -/
def jsRound (q : ℚ) : ℤ := ⌊q + 1 / 2⌋

/-- `Math.round(m / 60 * 10) / 10`: minutes to hours with one decimal. -/
def hoursTenth (m : Nat) : ℚ := (jsRound ((m : ℚ) / 60 * 10) : ℚ) / 10

/-- The five playtime distribution buckets. -/
structure Buckets where
  b100 : Nat
  b50 : Nat
  b10 : Nat
  b1 : Nat
  bLt1 : Nat
deriving DecidableEq, Repr

/-- The bucket-counting `games.forEach` from `steam-fetch.js`:
`h = (playtime_forever || 0) / 60`, then an `else if` chain over
`h >= 100`, `h >= 50`, `h >= 10`, `h >= 1`, `h > 0`. -/
def bucketStep (b : Buckets) (g : SteamGame) : Buckets :=
  let h : ℚ := (g.playtime_forever.getD 0 : ℚ) / 60
  if h ≥ 100 then { b with b100 := b.b100 + 1 }
  else if h ≥ 50 then { b with b50 := b.b50 + 1 }
  else if h ≥ 10 then { b with b10 := b.b10 + 1 }
  else if h ≥ 1 then { b with b1 := b.b1 + 1 }
  else if h > 0 then { b with bLt1 := b.bLt1 + 1 }
  else b

/-- The bucket counts over the whole owned-games list. -/
def bucketCounts (games : List SteamGame) : Buckets :=
  games.foldl bucketStep ⟨0, 0, 0, 0, 0⟩

/-- `playedCount`: games with strictly positive lifetime playtime. -/
def playedCount (games : List SteamGame) : Nat :=
  (games.filter fun g => g.playtime_forever.getD 0 > 0).length

/-- `topByPlaytime`: stable sort descending by lifetime playtime, take 10,
project display fields. -/
def topByPlaytime (games : List SteamGame) : List Json :=
  ((games.mergeSort fun a b =>
      decide (b.playtime_forever.getD 0 ≤ a.playtime_forever.getD 0)).take 10).map
    fun g =>
      Json.obj
        [ ("appid", Json.num g.appid),
          ("name", Json.str g.name),
          ("hours", Json.num (hoursTenth (g.playtime_forever.getD 0))),
          ("img_icon_url", Json.str (g.img_icon_url.getD "")) ]

/-- The `recentlyPlayed` projection. -/
def recentProjection (games : List SteamGame) : List Json :=
  games.map fun g =>
    Json.obj
      [ ("appid", Json.num g.appid),
        ("name", Json.str g.name),
        ("hours_2weeks", Json.num (hoursTenth (g.playtime_2weeks.getD 0))),
        ("hours_total", Json.num (hoursTenth (g.playtime_forever.getD 0))),
        ("img_icon_url", Json.str (g.img_icon_url.getD "")) ]

/-- The output document built by the main pipeline (lines 78–140 of
`steam-fetch.js`); `now` is the `new Date().toISOString()` clock reading. -/
def steamOutput (now : String) (owned : OwnedResponse) (recent : RecentResponse)
    (profile : PlayerProfile) : Json :=
  let games := owned.games.getD []
  let totalGames : Nat :=
    match owned.game_count with
    | some n => if n = 0 then games.length else n
    | none => games.length
  let totalMinutes : Nat :=
    games.foldl (fun sum g => sum + g.playtime_forever.getD 0) 0
  let totalHours : ℤ := jsRound ((totalMinutes : ℚ) / 60)
  let played := playedCount games
  let b := bucketCounts games
  Json.obj
    [ ("fetchedAt", Json.str now),
      ("profile", Json.obj
        [ ("name", Json.str (profile.personaname.getD "")),
          ("profileUrl", Json.str (profile.profileurl.getD "")),
          ("avatar", Json.str (profile.avatarmedium.getD "")) ]),
      ("stats", Json.obj
        [ ("totalGames", Json.num totalGames),
          ("totalHours", Json.num totalHours),
          ("playedCount", Json.num played),
          ("neverPlayed", Json.num ((totalGames : ℤ) - played)),
          ("playtimeBuckets", Json.obj
            [ ("100h+", Json.num b.b100),
              ("50-100h", Json.num b.b50),
              ("10-50h", Json.num b.b10),
              ("1-10h", Json.num b.b1),
              ("<1h", Json.num b.bLt1) ]) ]),
      ("recentlyPlayed", Json.arr (recentProjection (recent.games.getD []))),
      ("topByPlaytime", Json.arr (topByPlaytime games)) ]

/-- Environment of one batch-script run: the two credentials as read from
the environment, the settled outcome of each upstream request, whether the
output path is writable, and the clock. -/
structure SteamEnv where
  steam_api_key : Option String
  steam_id : Option String
  owned : Except String OwnedResponse
  recent : Except String RecentResponse
  profile : Except String PlayerProfile
  writeOk : Bool
  now : String

/-- Outcome of a batch-script run: process exit code and the document
written, if any. -/
structure RunOutcome where
  exitCode : Nat
  written : Option Json

/-- The whole `steam-fetch.js` run: a missing (or empty, hence falsy)
credential exits 1 before any fetch; a rejected upstream fetch or a write
failure is caught and exits 1 with nothing written; otherwise the snapshot
document is written and the process exits 0. -/
def runSteamFetch (env : SteamEnv) : RunOutcome :=
  let keyOk := match env.steam_api_key with | none => false | some s => s ≠ ""
  let idOk := match env.steam_id with | none => false | some s => s ≠ ""
  if keyOk && idOk then
    match env.owned, env.recent, env.profile with
    | Except.ok o, Except.ok r, Except.ok p =>
      if env.writeOk then
        { exitCode := 0, written := some (steamOutput env.now o r p) }
      else { exitCode := 1, written := none }
    | _, _, _ => { exitCode := 1, written := none }
  else { exitCode := 1, written := none }

/-! ## Theorems -/

/-- C6: `latestPair` selects by position only: an empty series yields
`{latest: null, previous: null}`, a singleton yields the point as latest with
no previous, and a series of length at least two yields the last element as
latest and the second-to-last as previous, with no value comparison or
reordering. -/
theorem latestPair_positional (pts : List Point) :
    (pts = [] → latestPair pts = { latest := none, previous := none }) ∧
    (∀ p, pts = [p] → latestPair pts = { latest := some p, previous := none }) ∧
    (2 ≤ pts.length →
      latestPair pts =
        { latest := pts.get? (pts.length - 1),
          previous := pts.get? (pts.length - 2) }) := by
  refine ⟨?_, ?_, ?_⟩
  · intro h; subst h; rfl
  · intro p h; subst h; rfl
  · intro h
    have h0 : ¬ pts.length = 0 := by omega
    have h1 : pts.length > 1 := by omega
    simp [latestPair, h0, h1]

/-- C6 witness: `latestPair` evaluated on concrete series of length 0, 1
and 2. -/
theorem latestPair_positional_witness :
    latestPair [] = { latest := none, previous := none } ∧
    latestPair [⟨"a", 1⟩] = { latest := some ⟨"a", 1⟩, previous := none } ∧
    latestPair [⟨"a", 1⟩, ⟨"b", 2⟩] =
      { latest := some ⟨"b", 2⟩, previous := some ⟨"a", 1⟩ } := by
  refine ⟨(latestPair_positional []).1 rfl,
          (latestPair_positional [⟨"a", 1⟩]).2.1 _ rfl, ?_⟩
  have h := (latestPair_positional [⟨"a", 1⟩, ⟨"b", 2⟩]).2.2 (by decide)
  simpa using h

/-- C4: `percentChange` is `null` for a null previous value and
`(current - previous) / abs(previous) * 100` otherwise; in particular
`percentChange(110, 100) = 10` and `percentChange(90, 100) = -10`; a zero
previous value gives a non-finite result, and `fmtTicker` formats a
non-finite percent exactly as it formats a null one (no finite percent is
displayed). -/
theorem percentChange_spec :
    (∀ c, percentChange c none = none) ∧
    (∀ c p, percentChange c (some p) =
      some (((c.sub p).div p.abs).mul (JsNum.fin 100))) ∧
    percentChange (JsNum.fin 110) (some (JsNum.fin 100)) = some (JsNum.fin 10) ∧
    percentChange (JsNum.fin 90) (some (JsNum.fin 100)) = some (JsNum.fin (-10)) ∧
    (∀ c : ℚ, ∃ r, percentChange (JsNum.fin c) (some (JsNum.fin 0)) = some r ∧
      r.isFinite = false) ∧
    (∀ fmtNum label v dec suf r, r.isFinite = false →
      fmtTicker fmtNum label v dec suf (some r) =
      fmtTicker fmtNum label v dec suf none) := by
  refine ⟨fun _ => rfl, fun _ _ => rfl, ?_, ?_, ?_, ?_⟩
  · simp [percentChange, JsNum.sub, JsNum.abs, JsNum.div, JsNum.mul]
    norm_num
  · simp [percentChange, JsNum.sub, JsNum.abs, JsNum.div, JsNum.mul]
    norm_num
  · intro c
    rcases lt_trichotomy c 0 with hc | hc | hc
    · refine ⟨JsNum.negInf, ?_, rfl⟩
      simp [percentChange, JsNum.sub, JsNum.abs, JsNum.div, JsNum.mul,
        abs_zero, sub_zero, hc, not_lt.mpr hc.le]
    · subst hc
      refine ⟨JsNum.nan, ?_, rfl⟩
      simp [percentChange, JsNum.sub, JsNum.abs, JsNum.div, JsNum.mul]
    · refine ⟨JsNum.posInf, ?_, rfl⟩
      simp [percentChange, JsNum.sub, JsNum.abs, JsNum.div, JsNum.mul, hc]
  · intro fmtNum label v dec suf r hr
    cases r <;> simp_all [fmtTicker, JsNum.isFinite]

/-- C5 counterexample: the claim says the direction passed to the DOM update
is null when `pct` is non-finite, but the code computes
`pct === null ? null : (pct >= 0 ? 'up' : 'down')`: the non-finite value
`Infinity` — reachable as the percent change when the previous value is `0` —
is mapped to `"up"`, not null. -/
theorem tickDirection_nonfinite_counterexample :
    tickDirection (some JsNum.posInf) = some Dir.up ∧
    JsNum.posInf.isFinite = false ∧
    percentChange (JsNum.fin 5) (some (JsNum.fin 0)) = some JsNum.posInf := by
  refine ⟨rfl, rfl, ?_⟩
  simp [percentChange, JsNum.sub, JsNum.abs, JsNum.div, JsNum.mul]

/-- C5 (amended): the direction passed to the DOM update is null exactly when
`pct` is null; otherwise it is `"up"` when the JS comparison `pct >= 0` holds
(zero and `Infinity` count as `"up"`) and `"down"` otherwise (negative values,
`-Infinity`, and `NaN`, for which `>=` is false). -/
theorem tickDirection_amended :
    (∀ pct, tickDirection pct = none ↔ pct = none) ∧
    (∀ p, p.jsGe (JsNum.fin 0) = true → tickDirection (some p) = some Dir.up) ∧
    (∀ p, p.jsGe (JsNum.fin 0) = false → tickDirection (some p) = some Dir.down) ∧
    (∀ q : ℚ, 0 ≤ q → tickDirection (some (JsNum.fin q)) = some Dir.up) ∧
    tickDirection (some JsNum.nan) = some Dir.down ∧
    tickDirection (some JsNum.negInf) = some Dir.down := by
  refine ⟨?_, ?_, ?_, ?_, rfl, rfl⟩
  · intro pct; cases pct <;> simp [tickDirection]
  · intro p hp; simp [tickDirection, hp]
  · intro p hp; simp [tickDirection, hp]
  · intro q hq; simp [tickDirection, JsNum.jsGe, hq]

/-- C5 (amended) witness: concrete directions for a null, a zero and a
negative percent change. -/
theorem tickDirection_amended_witness :
    tickDirection none = none ∧
    tickDirection (some (JsNum.fin 0)) = some Dir.up ∧
    tickDirection (some (JsNum.fin (-3))) = some Dir.down := by
  refine ⟨(tickDirection_amended.1 none).mpr rfl, ?_, ?_⟩
  · exact tickDirection_amended.2.2.2.1 0 le_rfl
  · exact tickDirection_amended.2.2.1 (JsNum.fin (-3)) (by decide)

/-- C4 witness: the non-finite case at `current = 110, previous = 0` and the
display rule at that value. -/
theorem percentChange_spec_witness :
    (∃ r, percentChange (JsNum.fin 110) (some (JsNum.fin 0)) = some r ∧
      r.isFinite = false) ∧
    fmtTicker (fun _ _ => "v") "L" 110 2 none (some JsNum.posInf) =
      fmtTicker (fun _ _ => "v") "L" 110 2 none none := by
  refine ⟨percentChange_spec.2.2.2.2.1 110, ?_⟩
  exact percentChange_spec.2.2.2.2.2 (fun _ _ => "v") "L" 110 2 none JsNum.posInf rfl

/-- `bucketStep` re-expressed over the playtime in minutes: the rational
hour thresholds `100, 50, 10, 1, 0` become the minute thresholds
`6000, 3000, 600, 60, 0`. -/
theorem bucketStep_eq (b : Buckets) (g : SteamGame) :
    bucketStep b g =
      (if 6000 ≤ g.playtime_forever.getD 0 then { b with b100 := b.b100 + 1 }
       else if 3000 ≤ g.playtime_forever.getD 0 then { b with b50 := b.b50 + 1 }
       else if 600 ≤ g.playtime_forever.getD 0 then { b with b10 := b.b10 + 1 }
       else if 60 ≤ g.playtime_forever.getD 0 then { b with b1 := b.b1 + 1 }
       else if 0 < g.playtime_forever.getD 0 then { b with bLt1 := b.bLt1 + 1 }
       else b) := by
  unfold bucketStep
  set m := g.playtime_forever.getD 0 with hm
  have h60 : (0 : ℚ) < 60 := by norm_num
  have e1 : ((m : ℚ) / 60 ≥ 100) ↔ 6000 ≤ m := by
    rw [ge_iff_le, le_div_iff₀ h60]
    norm_num
  have e2 : ((m : ℚ) / 60 ≥ 50) ↔ 3000 ≤ m := by
    rw [ge_iff_le, le_div_iff₀ h60]
    norm_num
  have e3 : ((m : ℚ) / 60 ≥ 10) ↔ 600 ≤ m := by
    rw [ge_iff_le, le_div_iff₀ h60]
    norm_num
  have e4 : ((m : ℚ) / 60 ≥ 1) ↔ 60 ≤ m := by
    rw [ge_iff_le, le_div_iff₀ h60]
    norm_num
  have e5 : ((m : ℚ) / 60 > 0) ↔ 0 < m := by
    constructor
    · intro h
      rcases Nat.eq_zero_or_pos m with h0 | h0
      · rw [h0] at h; norm_num at h
      · exact h0
    · intro h
      exact div_pos (by exact_mod_cast h) h60
  simp only [e1, e2, e3, e4, e5]

/-- One `bucketStep` adds `1` to the total bucket count exactly when the
game's lifetime playtime is positive. -/
theorem bucketStep_sum (b : Buckets) (g : SteamGame) :
    (bucketStep b g).b100 + (bucketStep b g).b50 + (bucketStep b g).b10 +
      (bucketStep b g).b1 + (bucketStep b g).bLt1 =
    b.b100 + b.b50 + b.b10 + b.b1 + b.bLt1 +
      (if 0 < g.playtime_forever.getD 0 then 1 else 0) := by
  rw [bucketStep_eq]
  split_ifs <;> simp <;> omega

/-- A game with zero lifetime playtime is counted in no bucket. -/
theorem bucketStep_zero (b : Buckets) (g : SteamGame)
    (h : g.playtime_forever.getD 0 = 0) : bucketStep b g = b := by
  rw [bucketStep_eq, h]
  norm_num

/-- Folding `bucketStep` over a games list adds `playedCount` to the total
bucket count, for any starting counters. -/
theorem bucketFold_sum (games : List SteamGame) : ∀ b : Buckets,
    (games.foldl bucketStep b).b100 + (games.foldl bucketStep b).b50 +
      (games.foldl bucketStep b).b10 + (games.foldl bucketStep b).b1 +
      (games.foldl bucketStep b).bLt1 =
    b.b100 + b.b50 + b.b10 + b.b1 + b.bLt1 + playedCount games := by
  induction games with
  | nil => intro b; simp [playedCount]
  | cons g gs ih =>
    intro b
    have hcount : playedCount (g :: gs) =
        (if 0 < g.playtime_forever.getD 0 then 1 else 0) + playedCount gs := by
      by_cases h : 0 < g.playtime_forever.getD 0
      · simp only [playedCount, List.filter_cons]
        rw [if_pos (by simpa using h), if_pos h]
        simp [Nat.add_comm]
      · simp only [playedCount, List.filter_cons]
        rw [if_neg (by simpa using h), if_neg h]
        simp
    simp only [List.foldl_cons]
    rw [ih (bucketStep b g), bucketStep_sum, hcount]
    omega

/-- C10: the five playtime-bucket counters partition the played games — a
game with positive playtime is counted in exactly one bucket, a game with
zero playtime in none, and the five bucket counts sum to
`stats.playedCount`. -/
theorem buckets_partition (games : List SteamGame) :
    (∀ b g, g.playtime_forever.getD 0 = 0 → bucketStep b g = b) ∧
    (∀ b g, 0 < g.playtime_forever.getD 0 →
      (bucketStep b g).b100 + (bucketStep b g).b50 + (bucketStep b g).b10 +
        (bucketStep b g).b1 + (bucketStep b g).bLt1 =
      b.b100 + b.b50 + b.b10 + b.b1 + b.bLt1 + 1) ∧
    (bucketCounts games).b100 + (bucketCounts games).b50 +
      (bucketCounts games).b10 + (bucketCounts games).b1 +
      (bucketCounts games).bLt1 = playedCount games := by
  refine ⟨fun b g h => bucketStep_zero b g h, ?_, ?_⟩
  · intro b g h
    rw [bucketStep_sum, if_pos h]
  · have h := bucketFold_sum games ⟨0, 0, 0, 0, 0⟩
    simpa [bucketCounts] using h

/-- C10 witness: a concrete library with a 100h game, a half-hour game, a
never-launched game and an absent playtime field. -/
theorem buckets_partition_witness :
    bucketStep ⟨0, 0, 0, 0, 0⟩ ⟨3, "c", some 0, none, none⟩ = ⟨0, 0, 0, 0, 0⟩ ∧
    (bucketCounts
        [⟨1, "a", some 6000, none, none⟩, ⟨2, "b", some 30, none, none⟩,
         ⟨3, "c", some 0, none, none⟩, ⟨4, "d", none, none, none⟩]).b100 +
      (bucketCounts
        [⟨1, "a", some 6000, none, none⟩, ⟨2, "b", some 30, none, none⟩,
         ⟨3, "c", some 0, none, none⟩, ⟨4, "d", none, none, none⟩]).b50 +
      (bucketCounts
        [⟨1, "a", some 6000, none, none⟩, ⟨2, "b", some 30, none, none⟩,
         ⟨3, "c", some 0, none, none⟩, ⟨4, "d", none, none, none⟩]).b10 +
      (bucketCounts
        [⟨1, "a", some 6000, none, none⟩, ⟨2, "b", some 30, none, none⟩,
         ⟨3, "c", some 0, none, none⟩, ⟨4, "d", none, none, none⟩]).b1 +
      (bucketCounts
        [⟨1, "a", some 6000, none, none⟩, ⟨2, "b", some 30, none, none⟩,
         ⟨3, "c", some 0, none, none⟩, ⟨4, "d", none, none, none⟩]).bLt1 =
      playedCount
        [⟨1, "a", some 6000, none, none⟩, ⟨2, "b", some 30, none, none⟩,
         ⟨3, "c", some 0, none, none⟩, ⟨4, "d", none, none, none⟩] :=
  ⟨(buckets_partition []).1 ⟨0, 0, 0, 0, 0⟩ ⟨3, "c", some 0, none, none⟩ rfl,
   (buckets_partition
     [⟨1, "a", some 6000, none, none⟩, ⟨2, "b", some 30, none, none⟩,
      ⟨3, "c", some 0, none, none⟩, ⟨4, "d", none, none, none⟩]).2.2⟩

/-- C1: `fetchText` tries the three transports in the fixed order codetabs,
AllOrigins "get" (where an empty decoded payload is itself a failure),
AllOrigins "raw", each attempt settled before the next is consulted; it
returns the first successful text, and it fails — surfacing the final path's
error — exactly when all three attempts fail. -/
theorem fetchText_chain (env : FetchEnv) :
    (∀ t, fetchViaCodetabs env.codetabs = Except.ok t →
      fetchTextLog env = (Except.ok t, [ProxyPath.codetabs])) ∧
    (∀ e t, fetchViaCodetabs env.codetabs = Except.error e →
      fetchViaAllOriginsGet env.aoGet = Except.ok t →
      fetchTextLog env = (Except.ok t, [ProxyPath.codetabs, ProxyPath.aoGet])) ∧
    (∀ e e', fetchViaCodetabs env.codetabs = Except.error e →
      fetchViaAllOriginsGet env.aoGet = Except.error e' →
      fetchTextLog env = (fetchViaAllOriginsRaw env.aoRaw,
        [ProxyPath.codetabs, ProxyPath.aoGet, ProxyPath.aoRaw])) ∧
    (∀ e, fetchText env = Except.error e ↔
      ∃ e₁ e₂, fetchViaCodetabs env.codetabs = Except.error e₁ ∧
        fetchViaAllOriginsGet env.aoGet = Except.error e₂ ∧
        fetchViaAllOriginsRaw env.aoRaw = Except.error e) ∧
    (∀ resp contents, env.aoGet = Except.ok resp → resp.ok = true →
      resp.json = Except.ok contents →
      decodeDataPayload (contents.getD "") = Except.ok "" →
      fetchViaAllOriginsGet env.aoGet = Except.error "AllOrigins/get empty") := by
  refine ⟨?_, ?_, ?_, ?_, ?_⟩
  · intro t h
    simp [fetchTextLog, h]
  · intro e t h1 h2
    simp [fetchTextLog, h1, h2]
  · intro e e' h1 h2
    simp [fetchTextLog, h1, h2]
  · intro e
    constructor
    · intro h
      rcases h1 : fetchViaCodetabs env.codetabs with e₁ | t₁
      · rcases h2 : fetchViaAllOriginsGet env.aoGet with e₂ | t₂
        · refine ⟨e₁, e₂, rfl, rfl, ?_⟩
          simpa [fetchText, fetchTextLog, h1, h2] using h
        · simp [fetchText, fetchTextLog, h1, h2] at h
      · simp [fetchText, fetchTextLog, h1] at h
    · rintro ⟨e₁, e₂, h1, h2, h3⟩
      simp [fetchText, fetchTextLog, h1, h2, h3]
  · intro resp contents hresp hok hjson hdec
    simp [fetchViaAllOriginsGet, hresp, hok, hjson, hdec]

/-- C1 witness: a run where the first two paths fail (the second because its
wrapped payload decodes to the empty string) and the raw path succeeds, and a
run where all three fail and the raw path's error is surfaced. -/
theorem fetchText_chain_witness :
    (fetchTextLog
        { codetabs := Except.ok ⟨false, 500, ""⟩,
          aoGet := Except.ok ⟨true, 200, Except.ok (some "data:;base64,")⟩,
          aoRaw := Except.ok ⟨true, 200, "csv"⟩ } =
      (Except.ok "csv",
       [ProxyPath.codetabs, ProxyPath.aoGet, ProxyPath.aoRaw])) ∧
    (fetchText
        { codetabs := Except.error "network down",
          aoGet := Except.ok ⟨false, 502, Except.error "bad json"⟩,
          aoRaw := Except.ok ⟨false, 404, ""⟩ } =
      Except.error "AllOrigins/raw HTTP 404") ∧
    fetchViaAllOriginsGet (Except.ok ⟨true, 200, Except.ok (some "data:;base64,")⟩) =
      Except.error "AllOrigins/get empty" := by
  have hempty : fetchViaAllOriginsGet
      (Except.ok ⟨true, 200, Except.ok (some "data:;base64,")⟩) =
      Except.error "AllOrigins/get empty" :=
    (fetchText_chain
        { codetabs := Except.ok ⟨false, 500, ""⟩,
          aoGet := Except.ok ⟨true, 200, Except.ok (some "data:;base64,")⟩,
          aoRaw := Except.ok ⟨true, 200, "csv"⟩ }).2.2.2.2
      ⟨true, 200, Except.ok (some "data:;base64,")⟩ (some "data:;base64,")
      rfl rfl rfl rfl
  refine ⟨?_, ?_, hempty⟩
  · exact (fetchText_chain _).2.2.1 "Codetabs HTTP 500" "AllOrigins/get empty"
      rfl hempty
  · have h := ((fetchText_chain
        { codetabs := Except.error "network down",
          aoGet := Except.ok ⟨false, 502, Except.error "bad json"⟩,
          aoRaw := Except.ok ⟨false, 404, ""⟩ }).2.2.2.1
        "AllOrigins/raw HTTP 404").mpr
      ⟨"network down", "AllOrigins/get HTTP 502", rfl, rfl, rfl⟩
    exact h

/-- `findComma` on a comma-free list. -/
theorem findComma_eq_none (xs : List Char) (h : ',' ∉ xs) :
    findComma xs = none := by
  induction xs with
  | nil => rfl
  | cons c cs ih =>
    have hc : ¬ c = ',' := by
      intro hc; exact h (by simp [hc])
    have hcs : ',' ∉ cs := by
      intro hm; exact h (List.mem_cons_of_mem c hm)
    simp [findComma, hc, ih hcs]

/-- `findComma` finds the first comma after a comma-free block. -/
theorem findComma_append (xs ys : List Char) (h : ',' ∉ xs) :
    findComma (xs ++ ',' :: ys) = some xs.length := by
  induction xs with
  | nil => simp [findComma]
  | cons c cs ih =>
    have hc : ¬ c = ',' := by
      intro hc; exact h (by simp [hc])
    have hcs : ',' ∉ cs := by
      intro hm; exact h (List.mem_cons_of_mem c hm)
    simp [findComma, hc, ih hcs]

/-- `decodeDataPayload` on a wrapped payload `data:<md>,<pl>` dispatches on
the `;base64` marker in the metadata segment. -/
theorem decodeDataPayload_wrapped (md pl : String) (hmd : ',' ∉ md.data) :
    decodeDataPayload ("data:" ++ md ++ "," ++ pl) =
      (if containsSub ";base64".data ("data:" ++ md).data then atob pl
       else decodeURIComponentJs pl) := by
  have hdata : ("data:" ++ md ++ "," ++ pl).data =
      ("data:" ++ md).data ++ ',' :: pl.data := by
    simp [String.data_append, List.append_assoc]
  have hmeta : ',' ∉ ("data:" ++ md).data := by
    rw [String.data_append]
    intro hm
    rcases List.mem_append.mp hm with hm | hm
    · simp at hm
    · exact hmd hm
  have hne : ¬ ("data:" ++ md ++ "," ++ pl) = "" := by
    intro h
    have := congrArg String.data h
    rw [hdata] at this
    simp at this
  have hpre : "data:".data.isPrefixOf ("data:" ++ md ++ "," ++ pl).data = true := by
    rw [List.isPrefixOf_iff_prefix, hdata, String.data_append]
    rw [List.append_assoc]
    exact List.prefix_append _ _
  have hcomma : findComma ("data:" ++ md ++ "," ++ pl).data =
      some ("data:" ++ md).data.length := by
    rw [hdata]
    exact findComma_append _ _ hmeta
  have htake : ("data:" ++ md ++ "," ++ pl).data.take ("data:" ++ md).data.length =
      ("data:" ++ md).data := by
    rw [hdata]
    exact List.take_left _ _
  have hdrop : ("data:" ++ md ++ "," ++ pl).data.drop
      (("data:" ++ md).data.length + 1) = pl.data := by
    rw [hdata]
    have h1 : ("data:" ++ md).data ++ ',' :: pl.data =
        (("data:" ++ md).data ++ [',']) ++ pl.data := by simp
    have h2 : ("data:" ++ md).data.length + 1 =
        (("data:" ++ md).data ++ [',']).length := by simp
    rw [h1, h2]
    exact List.drop_left _ _
  rw [decodeDataPayload]
  rw [if_neg hne, if_neg (by simp [hpre]), hcomma]
  simp only [htake, hdrop]

/-- C7: `decodeDataPayload` returns the input unchanged when it does not
begin with the `data:` wrapper (including the empty string), returns the
whole input unchanged when it begins with the wrapper but has no comma
separator, base64-decodes the payload segment when the metadata segment
contains `;base64`, and percent-decodes the payload segment otherwise. -/
theorem decodeDataPayload_dispatch :
    (∀ s : String, "data:".data.isPrefixOf s.data = false →
      decodeDataPayload s = Except.ok s) ∧
    (∀ s : String, ',' ∉ s.data → decodeDataPayload s = Except.ok s) ∧
    (∀ md pl : String, ',' ∉ md.data →
      containsSub ";base64".data ("data:" ++ md).data = true →
      decodeDataPayload ("data:" ++ md ++ "," ++ pl) = atob pl) ∧
    (∀ md pl : String, ',' ∉ md.data →
      containsSub ";base64".data ("data:" ++ md).data = false →
      decodeDataPayload ("data:" ++ md ++ "," ++ pl) = decodeURIComponentJs pl) := by
  refine ⟨?_, ?_, ?_, ?_⟩
  · intro s h
    by_cases hs : s = ""
    · subst hs; rfl
    · rw [decodeDataPayload, if_neg hs, if_pos (by simp [h])]
  · intro s h
    by_cases hs : s = ""
    · subst hs; rfl
    · rw [decodeDataPayload, if_neg hs]
      by_cases hp : "data:".data.isPrefixOf s.data = true
      · rw [if_neg (by simp [hp]), findComma_eq_none s.data h]
      · rw [if_pos (by simpa using hp)]
  · intro md pl hmd hb
    rw [decodeDataPayload_wrapped md pl hmd, if_pos hb]
  · intro md pl hmd hb
    rw [decodeDataPayload_wrapped md pl hmd]
    simp only [hb, Bool.false_eq_true, if_false]

/-- C7 witness: the four dispatch modes on concrete inputs. -/
theorem decodeDataPayload_dispatch_witness :
    decodeDataPayload "plain text" = Except.ok "plain text" ∧
    decodeDataPayload "data:no separator" = Except.ok "data:no separator" ∧
    decodeDataPayload "data:;base64,SGVsbG8=" = Except.ok "Hello" ∧
    decodeDataPayload "data:,abc%20def" = Except.ok "abc def" := by
  refine ⟨decodeDataPayload_dispatch.1 "plain text" (by decide),
          decodeDataPayload_dispatch.2.1 "data:no separator" (by decide), ?_, ?_⟩
  · have h := decodeDataPayload_dispatch.2.2.1 ";base64" "SGVsbG8="
      (by decide) (by decide)
    rw [show ("data:" ++ ";base64" ++ "," ++ "SGVsbG8=") = "data:;base64,SGVsbG8=" from rfl] at h
    rw [h]
    rfl
  · have h := decodeDataPayload_dispatch.2.2.2 "" "abc%20def"
      (by decide) (by decide)
    rw [show ("data:" ++ "" ++ "," ++ "abc%20def") = "data:,abc%20def" from rfl] at h
    rw [h]
    rfl

/-- C8 counterexample: the claim says decode never raises even on malformed
payloads, but `decodeDataPayload` forwards `atob` / `decodeURIComponent`
exceptions: a wrapped base64 payload with an invalid character throws
`InvalidCharacterError`, and a wrapped percent payload with a lone `%`
throws `URIError`. -/
theorem decodeDataPayload_raises_counterexample :
    decodeDataPayload "data:;base64,!" = Except.error "InvalidCharacterError" ∧
    decodeDataPayload "data:,%" = Except.error "URIError" :=
  ⟨rfl, rfl⟩

/-- C8 (amended): `decodeDataPayload` raises only for wrapped inputs — ones
beginning with the `data:` prefix and containing a comma separator — whose
payload segment fails the declared decoding (`atob` for a `;base64`
metadata, percent-decoding otherwise); on every other input it returns a
string. -/
theorem decodeDataPayload_raises_only_wrapped (s e : String)
    (h : decodeDataPayload s = Except.error e) :
    "data:".data.isPrefixOf s.data = true ∧
    (∃ i, findComma s.data = some i ∧
      ((containsSub ";base64".data (s.data.take i) = true ∧
        atob (String.mk (s.data.drop (i + 1))) = Except.error e) ∨
       (containsSub ";base64".data (s.data.take i) = false ∧
        decodeURIComponentJs (String.mk (s.data.drop (i + 1))) = Except.error e))) := by
  unfold decodeDataPayload at h
  split at h
  · simp at h
  · split at h
    · simp at h
    · next hp =>
      have hp' : "data:".data.isPrefixOf s.data = true := by
        by_contra hc
        exact hp (by simpa using hc)
      refine ⟨hp', ?_⟩
      split at h
      · simp at h
      · next i hc =>
        refine ⟨i, hc, ?_⟩
        have h' : (if containsSub ";base64".data (s.data.take i) = true then
            atob ⟨s.data.drop (i + 1)⟩
          else decodeURIComponentJs ⟨s.data.drop (i + 1)⟩) = Except.error e := h
        split at h'
        · next hb => exact Or.inl ⟨hb, h'⟩
        · next hb => exact Or.inr ⟨by simpa using hb, h'⟩

/-- C8 (amended) witness: the failing base64 input decomposed by the
theorem. -/
theorem decodeDataPayload_raises_only_wrapped_witness :
    "data:".data.isPrefixOf "data:;base64,!".data = true ∧
    (∃ i, findComma "data:;base64,!".data = some i ∧
      ((containsSub ";base64".data ("data:;base64,!".data.take i) = true ∧
        atob (String.mk ("data:;base64,!".data.drop (i + 1))) =
          Except.error "InvalidCharacterError") ∨
       (containsSub ";base64".data ("data:;base64,!".data.take i) = false ∧
        decodeURIComponentJs (String.mk ("data:;base64,!".data.drop (i + 1))) =
          Except.error "InvalidCharacterError"))) :=
  decodeDataPayload_raises_only_wrapped "data:;base64,!" "InvalidCharacterError" rfl

/-- Case analysis of a batch-script run: either every precondition holds and
the run succeeds with the snapshot document, or the run exits 1 writing
nothing. -/
theorem runSteamFetch_cases (env : SteamEnv) :
    (∃ o r p, env.owned = Except.ok o ∧ env.recent = Except.ok r ∧
      env.profile = Except.ok p ∧ env.writeOk = true ∧
      (∃ k, env.steam_api_key = some k ∧ k ≠ "") ∧
      (∃ i, env.steam_id = some i ∧ i ≠ "") ∧
      runSteamFetch env = ⟨0, some (steamOutput env.now o r p)⟩) ∨
    runSteamFetch env = ⟨1, none⟩ := by
  obtain ⟨key, sid, owned, recent, profile, writeOk, now⟩ := env
  rcases key with _ | k
  · right; rfl
  rcases sid with _ | i
  · right; simp [runSteamFetch]
  by_cases hk : k = ""
  · right; subst hk; simp [runSteamFetch]
  by_cases hi : i = ""
  · right; subst hi; simp [runSteamFetch]
  rcases owned with e | o
  · right; simp [runSteamFetch, hk, hi]
  rcases recent with e | r
  · right; simp [runSteamFetch, hk, hi]
  rcases profile with e | p
  · right; simp [runSteamFetch, hk, hi]
  rcases writeOk with _ | _
  · right; simp [runSteamFetch, hk, hi]
  · refine Or.inl ⟨o, r, p, rfl, rfl, rfl, rfl, ⟨k, rfl, hk⟩, ⟨i, rfl, hi⟩, ?_⟩
    simp [runSteamFetch, hk, hi]

/-- C9: the batch script exits with a non-zero status and writes nothing
whenever a credential is missing from the environment, and likewise on any
upstream fetch error or write failure; on success it exits 0 and writes one
JSON document whose top-level fields are exactly `fetchedAt` (carrying the
run's clock reading), `profile`, `stats`, `recentlyPlayed` and
`topByPlaytime`. -/
theorem runSteamFetch_contract (env : SteamEnv) :
    ((env.steam_api_key = none ∨ env.steam_id = none) →
      (runSteamFetch env).exitCode = 1 ∧ (runSteamFetch env).written = none) ∧
    ((∃ e, env.owned = Except.error e) ∨ (∃ e, env.recent = Except.error e) ∨
        (∃ e, env.profile = Except.error e) →
      (runSteamFetch env).exitCode = 1 ∧ (runSteamFetch env).written = none) ∧
    (env.writeOk = false →
      (runSteamFetch env).exitCode = 1 ∧ (runSteamFetch env).written = none) ∧
    (∀ o r p, env.owned = Except.ok o → env.recent = Except.ok r →
      env.profile = Except.ok p → (runSteamFetch env).exitCode = 0 →
      (runSteamFetch env).written = some (steamOutput env.now o r p) ∧
      Json.topKeys (steamOutput env.now o r p) =
        ["fetchedAt", "profile", "stats", "recentlyPlayed", "topByPlaytime"] ∧
      ∃ rest, steamOutput env.now o r p =
        Json.obj (("fetchedAt", Json.str env.now) :: rest)) := by
  refine ⟨?_, ?_, ?_, ?_⟩
  · intro hcred
    rcases runSteamFetch_cases env with
      ⟨o, r, p, _, _, _, _, ⟨k, hk, _⟩, ⟨i, hi, _⟩, _⟩ | heq
    · rcases hcred with h | h
      · rw [h] at hk; cases hk
      · rw [h] at hi; cases hi
    · rw [heq]; exact ⟨rfl, rfl⟩
  · intro hup
    rcases runSteamFetch_cases env with
      ⟨o, r, p, ho, hr, hp, _, _, _, _⟩ | heq
    · rcases hup with ⟨e, he⟩ | ⟨e, he⟩ | ⟨e, he⟩
      · rw [he] at ho; cases ho
      · rw [he] at hr; cases hr
      · rw [he] at hp; cases hp
    · rw [heq]; exact ⟨rfl, rfl⟩
  · intro hw0
    rcases runSteamFetch_cases env with
      ⟨o, r, p, _, _, _, hw, _, _, _⟩ | heq
    · rw [hw0] at hw; cases hw
    · rw [heq]; exact ⟨rfl, rfl⟩
  · intro o r p ho hr hp hexit
    rcases runSteamFetch_cases env with
      ⟨o', r', p', ho', hr', hp', _, _, _, heq⟩ | heq
    · rw [ho] at ho'; injection ho' with h1
      rw [hr] at hr'; injection hr' with h2
      rw [hp] at hp'; injection hp' with h3
      subst h1; subst h2; subst h3
      rw [heq]
      exact ⟨rfl, rfl, _, rfl⟩
    · rw [heq] at hexit; cases hexit

/-- C9 witness: a run missing one credential, a run with a failed upstream
fetch, a run with a write failure, and a fully successful run whose written
document has exactly the five top-level fields. -/
theorem runSteamFetch_contract_witness :
    ((runSteamFetch
        { steam_api_key := none, steam_id := some "id",
          owned := Except.error "unreached", recent := Except.error "unreached",
          profile := Except.error "unreached", writeOk := true,
          now := "t" }).exitCode = 1 ∧
      (runSteamFetch
        { steam_api_key := none, steam_id := some "id",
          owned := Except.error "unreached", recent := Except.error "unreached",
          profile := Except.error "unreached", writeOk := true,
          now := "t" }).written = none) ∧
    ((runSteamFetch
        { steam_api_key := some "k", steam_id := some "id",
          owned := Except.error "GetOwnedGames failed: 500",
          recent := Except.ok ⟨none⟩, profile := Except.ok ⟨none, none, none⟩,
          writeOk := true, now := "t" }).exitCode = 1) ∧
    ((runSteamFetch
        { steam_api_key := some "k", steam_id := some "id",
          owned := Except.ok ⟨none, none⟩, recent := Except.ok ⟨none⟩,
          profile := Except.ok ⟨none, none, none⟩, writeOk := false,
          now := "t" }).exitCode = 1) ∧
    ((runSteamFetch
        { steam_api_key := some "k", steam_id := some "id",
          owned := Except.ok ⟨none, none⟩, recent := Except.ok ⟨none⟩,
          profile := Except.ok ⟨none, none, none⟩, writeOk := true,
          now := "t" }).written.map Json.topKeys =
      some ["fetchedAt", "profile", "stats", "recentlyPlayed", "topByPlaytime"]) := by
  refine ⟨(runSteamFetch_contract _).1 (Or.inl rfl), ?_, ?_, ?_⟩
  · exact ((runSteamFetch_contract _).2.1
      (Or.inl ⟨"GetOwnedGames failed: 500", rfl⟩)).1
  · exact ((runSteamFetch_contract _).2.2.1 rfl).1
  · have h := (runSteamFetch_contract
        { steam_api_key := some "k", steam_id := some "id",
          owned := Except.ok ⟨none, none⟩, recent := Except.ok ⟨none⟩,
          profile := Except.ok ⟨none, none, none⟩, writeOk := true,
          now := "t" }).2.2.2 ⟨none, none⟩ ⟨none⟩ ⟨none, none, none⟩
        rfl rfl rfl rfl
    exact (congrArg (Option.map Json.topKeys) h.1).trans (congrArg some h.2.1)

/-- A list without line terminators is a single line. -/
theorem splitLinesCh_single (l : List Char) (hn : '\n' ∉ l) (hr : '\r' ∉ l) :
    splitLinesCh l = [l] := by
  induction l with
  | nil => rfl
  | cons c cs ih =>
    have hc1 : ¬ c = '\n' := fun h => hn (by simp [h])
    have hc2 : ¬ c = '\r' := fun h => hr (by simp [h])
    have ih' := ih (fun h => hn (List.mem_cons_of_mem _ h))
      (fun h => hr (List.mem_cons_of_mem _ h))
    rw [splitLinesCh.eq_def]
    simp [if_neg hc1, if_neg hc2, ih']

/-- Splitting after a terminator-free line peels off that line. -/
theorem splitLinesCh_append (l t : List Char) (hn : '\n' ∉ l) (hr : '\r' ∉ l) :
    splitLinesCh (l ++ '\n' :: t) = l :: splitLinesCh t := by
  induction l with
  | nil =>
    rw [List.nil_append, splitLinesCh.eq_def]
    simp
  | cons c cs ih =>
    have hc1 : ¬ c = '\n' := fun h => hn (by simp [h])
    have hc2 : ¬ c = '\r' := fun h => hr (by simp [h])
    have ih' := ih (fun h => hn (List.mem_cons_of_mem _ h))
      (fun h => hr (List.mem_cons_of_mem _ h))
    rw [List.cons_append, splitLinesCh.eq_def]
    simp [if_neg hc1, if_neg hc2, ih']

/-- The line split inverts `joinLines` on nonempty lists of terminator-free
lines. -/
theorem splitLinesCh_join (ls : List (List Char)) (hne : ls ≠ [])
    (hno : ∀ l ∈ ls, '\n' ∉ l ∧ '\r' ∉ l) :
    splitLinesCh (joinLines ls) = ls := by
  induction ls with
  | nil => exact absurd rfl hne
  | cons l ls ih =>
    rcases ls with _ | ⟨l', ls'⟩
    · rw [show joinLines [l] = l from rfl]
      exact splitLinesCh_single l (hno l (by simp)).1 (hno l (by simp)).2
    · rw [show joinLines (l :: l' :: ls') = l ++ '\n' :: joinLines (l' :: ls') from rfl]
      rw [splitLinesCh_append l _ (hno l (by simp)).1 (hno l (by simp)).2]
      rw [ih (by simp) (fun x hx => hno x (by simp [hx]))]

/-- Empty lines parse to nothing, so pre-filtering them away is invisible to
the per-line parse. -/
theorem filterMap_filter_ne (l : List String) :
    (l.filter (· ≠ "")).filterMap parseFredLine = l.filterMap parseFredLine := by
  have hnone : parseFredLine "" = none := rfl
  induction l with
  | nil => rfl
  | cons x xs ih =>
    by_cases hx : x = ""
    · subst hx
      rw [show List.filter (· ≠ "") ("" :: xs) = List.filter (· ≠ "") xs from by
        simp [List.filter_cons]]
      rw [ih, List.filterMap_cons, hnone]
    · rw [show List.filter (· ≠ "") (x :: xs) = x :: List.filter (· ≠ "") xs from by
        simp [List.filter_cons, hx]]
      rw [List.filterMap_cons, List.filterMap_cons, ih]

/-- The number of parsed points is the number of lines whose parse
succeeds. -/
theorem length_filterMap_isSome (l : List String) :
    (l.filterMap parseFredLine).length =
      (l.filter fun x => (parseFredLine x).isSome).length := by
  induction l with
  | nil => rfl
  | cons x xs ih =>
    rcases hx : parseFredLine x with _ | p <;>
      simp [List.filterMap_cons, List.filter_cons, hx, ih]

/-- C3: on an input whose first (header) line is nonempty and whose
remaining lines are free of line terminators, `parseFredCsv` returns exactly
the points of the lines whose second comma-field is a finite number, in
order, dropping malformed and empty lines; and `fetchFred` fails with
`No data` exactly when that list of points is empty. -/
theorem parseFredCsv_spec (csv header : String) (rest : List String)
    (hdata : csv.data = joinLines ((header :: rest).map String.data))
    (hno : ∀ l ∈ header :: rest, '\n' ∉ l.data ∧ '\r' ∉ l.data)
    (hheader : header ≠ "") :
    parseFredCsv csv = rest.filterMap parseFredLine ∧
    (parseFredCsv csv).length =
      (rest.filter fun l => (parseFredLine l).isSome).length ∧
    (∀ env, fetchText env = Except.ok csv →
      (fetchFred env = Except.error "No data" ↔
        rest.filterMap parseFredLine = []) ∧
      (rest.filterMap parseFredLine ≠ [] →
        fetchFred env = Except.ok (rest.filterMap parseFredLine))) := by
  have hsplit : splitLinesCh csv.data = (header :: rest).map String.data := by
    rw [hdata]
    refine splitLinesCh_join _ (by simp) ?_
    intro l hl
    rcases List.mem_map.mp hl with ⟨x, hx, rfl⟩
    exact hno x hx
  have hX : ((splitLinesCh csv.data).map fun l => String.mk l).filter (· ≠ "") =
      header :: rest.filter (· ≠ "") := by
    rw [hsplit, List.map_map]
    have hid : ((fun l => String.mk l) ∘ String.data) = id := funext fun s => rfl
    rw [hid, List.map_id, List.filter_cons, if_pos (by simp [hheader])]
  have hmain : parseFredCsv csv = rest.filterMap parseFredLine := by
    show (let lines := ((splitLinesCh csv.data).map fun l => String.mk l).filter (· ≠ "");
        if lines.length < 2 then [] else (lines.drop 1).filterMap parseFredLine) =
      rest.filterMap parseFredLine
    simp only [hX]
    by_cases hre : rest.filter (· ≠ "") = []
    · rw [hre]
      rw [if_pos (by simp)]
      rw [← filterMap_filter_ne rest, hre]
      rfl
    · have hpos : 0 < (rest.filter (· ≠ "")).length := List.length_pos.mpr hre
      have hlen1 : (header :: rest.filter (· ≠ "")).length =
          (rest.filter (· ≠ "")).length + 1 := List.length_cons header _
      rw [if_neg (by rw [hlen1]; omega)]
      rw [show (header :: rest.filter (· ≠ "")).drop 1 = rest.filter (· ≠ "") from rfl]
      exact filterMap_filter_ne rest
  refine ⟨hmain, by rw [hmain, length_filterMap_isSome], ?_⟩
  intro env henv
  have hfetch : fetchFred env =
      (if (parseFredCsv csv).length = 0 then Except.error "No data"
       else Except.ok (parseFredCsv csv)) := by
    unfold fetchFred
    rw [henv]
  rw [hfetch, hmain]
  by_cases hempty : rest.filterMap parseFredLine = []
  · rw [hempty]
    simp
  · have hlen : ¬ (rest.filterMap parseFredLine).length = 0 := by
      simpa [List.length_eq_zero] using hempty
    rw [if_neg hlen]
    simp [hempty]

/-- C3 witness: a concrete CSV with a header, two valid data lines, one
malformed line and one empty line. -/
theorem parseFredCsv_spec_witness :
    parseFredCsv "DATE,SP500\n2024-01-01,1.5\nbad\n\n2024-01-03,2" =
      (["2024-01-01,1.5", "bad", "", "2024-01-03,2"].filterMap parseFredLine) ∧
    (parseFredCsv "DATE,SP500\n2024-01-01,1.5\nbad\n\n2024-01-03,2").length = 2 ∧
    (parseFredCsv "DATE,SP500\n2024-01-01,1.5\nbad\n\n2024-01-03,2").map
      Point.date = ["2024-01-01", "2024-01-03"] ∧
    fetchFred
      { codetabs := Except.ok
          ⟨true, 200, "DATE,SP500\n2024-01-01,1.5\nbad\n\n2024-01-03,2"⟩,
        aoGet := Except.error "unused", aoRaw := Except.error "unused" } =
      Except.ok
        (["2024-01-01,1.5", "bad", "", "2024-01-03,2"].filterMap parseFredLine) := by
  have h := parseFredCsv_spec "DATE,SP500\n2024-01-01,1.5\nbad\n\n2024-01-03,2"
    "DATE,SP500" ["2024-01-01,1.5", "bad", "", "2024-01-03,2"]
    rfl (by decide) (by decide)
  refine ⟨h.1, ?_, ?_, ?_⟩
  · rw [h.2.1]
    rfl
  · rw [h.1]
    rfl
  · refine (h.2.2
      { codetabs := Except.ok
          ⟨true, 200, "DATE,SP500\n2024-01-01,1.5\nbad\n\n2024-01-03,2"⟩,
        aoGet := Except.error "unused", aoRaw := Except.error "unused" }
      rfl).2 ?_
    intro hcontra
    have h2 : (["2024-01-01,1.5", "bad", "", "2024-01-03,2"].filterMap
        parseFredLine).length = 2 := rfl
    rw [hcontra] at h2
    simp at h2

/-- A nonempty series has a latest point. -/
theorem latestPair_latest_of_ne_nil (pts : List Point) (h : pts ≠ []) :
    ∃ p, (latestPair pts).latest = some p := by
  have hlen : ¬ pts.length = 0 := by simpa [List.length_eq_zero] using h
  rcases hget : pts.get? (pts.length - 1) with _ | p
  · exfalso
    rw [List.get?_eq_none] at hget
    omega
  · refine ⟨p, ?_⟩
    simp only [latestPair, if_neg hlen]
    simpa using hget

/-- `updateSpans` rewrites every span bound to its own attribute. -/
theorem updateSpans_self (attr text : String) (dir : Option Dir) (dom : Dom) :
    updateSpans attr text dir dom attr =
      (dom attr).map fun _ =>
        { text := text, up := decide (dir = some Dir.up),
          down := decide (dir = some Dir.down) } := by
  simp [updateSpans]

/-- `updateSpans` leaves every other attribute untouched. -/
theorem updateSpans_other (attr text : String) (dir : Option Dir) (dom : Dom)
    (a : String) (h : ¬ a = attr) : updateSpans attr text dir dom a = dom a := by
  simp [updateSpans, h]

/-- A fulfilled outcome with a latest point renders through `updateSpans`. -/
theorem renderOneResult_ok_eq (fmtNum : ℚ → Nat → String) (dom : Dom)
    (cfg : TickerCfg) (pts : List Point) (p : Point)
    (hl : (latestPair pts).latest = some p) :
    renderOneResult fmtNum dom (cfg, Except.ok pts) =
      updateSpans cfg.attr
        (fmtTicker fmtNum cfg.label p.value cfg.decimals cfg.suffix
          (percentChange (JsNum.fin p.value)
            ((latestPair pts).previous.map fun q => JsNum.fin q.value)))
        (tickDirection (percentChange (JsNum.fin p.value)
          ((latestPair pts).previous.map fun q => JsNum.fin q.value))) dom := by
  unfold renderOneResult
  simp only [hl]

/-- A result for a different binding attribute does not change that
attribute's spans. -/
theorem renderOneResult_other (fmtNum : ℚ → Nat → String) (dom : Dom)
    (r : TickerCfg × Except String (List Point)) (a : String)
    (h : ¬ r.1.attr = a) : renderOneResult fmtNum dom r a = dom a := by
  rcases r with ⟨cfg, res⟩
  rcases res with e | pts
  · rfl
  · rcases hl : (latestPair pts).latest with _ | p
    · unfold renderOneResult
      simp only [hl]
    · rw [renderOneResult_ok_eq fmtNum dom cfg pts p hl]
      exact updateSpans_other _ _ _ _ _ (fun ha => h ha.symm)

/-- One render pass step at a time: `renderFredResults` over an appended
list. -/
theorem renderFredResults_append (fmtNum : ℚ → Nat → String)
    (l₁ l₂ : List (TickerCfg × Except String (List Point))) (dom : Dom) :
    renderFredResults fmtNum (l₁ ++ l₂) dom =
      renderFredResults fmtNum l₂ (renderFredResults fmtNum l₁ dom) := by
  simp [renderFredResults, List.foldl_append]

/-- One render pass step at a time: `renderFredResults` over a cons. -/
theorem renderFredResults_cons (fmtNum : ℚ → Nat → String)
    (r : TickerCfg × Except String (List Point))
    (rs : List (TickerCfg × Except String (List Point))) (dom : Dom) :
    renderFredResults fmtNum (r :: rs) dom =
      renderFredResults fmtNum rs (renderOneResult fmtNum dom r) := rfl

/-- A render pass over results none of which carry attribute `a` leaves the
spans of `a` untouched. -/
theorem renderFredResults_untouched (fmtNum : ℚ → Nat → String)
    (results : List (TickerCfg × Except String (List Point))) :
    ∀ (dom : Dom) (a : String), (∀ r ∈ results, ¬ r.1.attr = a) →
    renderFredResults fmtNum results dom a = dom a := by
  induction results with
  | nil => intro dom a _; rfl
  | cons r rs ih =>
    intro dom a h
    show renderFredResults fmtNum rs (renderOneResult fmtNum dom r) a = dom a
    rw [ih _ a (fun x hx => h x (List.mem_cons_of_mem r hx))]
    exact renderOneResult_other fmtNum dom r a (h r (List.mem_cons_self r rs))

/-- C2: in every run over the configured series-backed tickers, one ticker's
fetch-and-parse failure does not prevent the others from rendering, and a
failed ticker's spans keep their previous text and classes: its binding
attribute maps to exactly the prior DOM state, while any successfully
fetched ticker with a nonempty series gets every one of its spans rewritten. -/
theorem loadTickerFred_isolation (fmtNum : ℚ → Nat → String)
    (net : String → FetchEnv) (dom : Dom) :
    (∀ cfg ∈ fredTickers, ∀ e, fetchFred (net cfg.fred) = Except.error e →
      loadTickerFred fmtNum net dom cfg.attr = dom cfg.attr) ∧
    (∀ cfg ∈ fredTickers, ∀ pts, fetchFred (net cfg.fred) = Except.ok pts →
      pts ≠ [] →
      ∃ text dir, loadTickerFred fmtNum net dom cfg.attr =
        (dom cfg.attr).map fun _ =>
          { text := text, up := decide (dir = some Dir.up),
            down := decide (dir = some Dir.down) }) := by
  have hnodup : (fredTickers.map fun c => c.attr).Nodup := by decide
  have hsplitter : ∀ cfg ∈ fredTickers, ∃ pre post,
      fredTickers = pre ++ cfg :: post ∧
      (∀ x ∈ pre, ¬ x.attr = cfg.attr) ∧ (∀ x ∈ post, ¬ x.attr = cfg.attr) := by
    intro cfg hmem
    rcases List.append_of_mem hmem with ⟨pre, post, hsplit⟩
    refine ⟨pre, post, hsplit, ?_, ?_⟩
    · intro x hx hax
      have h' := hnodup
      rw [hsplit, List.map_append, List.map_cons] at h'
      rcases List.nodup_append.mp h' with ⟨_, _, hdisj⟩
      exact hdisj (List.mem_map.mpr ⟨x, hx, hax⟩) (by simp)
    · intro x hx hax
      have h' := hnodup
      rw [hsplit, List.map_append, List.map_cons] at h'
      rcases List.nodup_append.mp h' with ⟨_, h2, _⟩
      exact (List.nodup_cons.mp h2).1 (List.mem_map.mpr ⟨x, hx, hax.symm ▸ rfl⟩)
  have hkey : ∀ cfg ∈ fredTickers,
      loadTickerFred fmtNum net dom cfg.attr =
        renderOneResult fmtNum dom (cfg, fetchFred (net cfg.fred)) cfg.attr := by
    intro cfg hmem
    rcases hsplitter cfg hmem with ⟨pre, post, hsplit, hpre, hpost⟩
    unfold loadTickerFred
    rw [hsplit, List.map_append, List.map_cons, renderFredResults_append,
      renderFredResults_cons]
    have hpost' : ∀ r ∈ post.map fun c => (c, fetchFred (net c.fred)),
        ¬ r.1.attr = cfg.attr := by
      intro r hr
      rcases List.mem_map.mp hr with ⟨x, hx, rfl⟩
      exact hpost x hx
    rw [renderFredResults_untouched fmtNum _ _ _ hpost']
    have hpre' : ∀ r ∈ pre.map fun c => (c, fetchFred (net c.fred)),
        ¬ r.1.attr = cfg.attr := by
      intro r hr
      rcases List.mem_map.mp hr with ⟨x, hx, rfl⟩
      exact hpre x hx
    have hdomeq : renderFredResults fmtNum
        (pre.map fun c => (c, fetchFred (net c.fred))) dom cfg.attr =
        dom cfg.attr := renderFredResults_untouched fmtNum _ _ _ hpre'
    rcases hfetch : fetchFred (net cfg.fred) with e | pts
    · rw [show renderOneResult fmtNum
          (renderFredResults fmtNum (pre.map fun c => (c, fetchFred (net c.fred))) dom)
          (cfg, Except.error e) =
          renderFredResults fmtNum (pre.map fun c => (c, fetchFred (net c.fred))) dom
          from rfl]
      rw [hdomeq]
      rw [show renderOneResult fmtNum dom (cfg, Except.error e) = dom from rfl]
    · rcases hl : (latestPair pts).latest with _ | p
      · have h1 : renderOneResult fmtNum
            (renderFredResults fmtNum (pre.map fun c => (c, fetchFred (net c.fred))) dom)
            (cfg, Except.ok pts) =
            renderFredResults fmtNum (pre.map fun c => (c, fetchFred (net c.fred))) dom := by
          unfold renderOneResult
          simp only [hl]
        have h2 : renderOneResult fmtNum dom (cfg, Except.ok pts) = dom := by
          unfold renderOneResult
          simp only [hl]
        rw [h1, h2, hdomeq]
      · rw [renderOneResult_ok_eq fmtNum _ cfg pts p hl,
          renderOneResult_ok_eq fmtNum dom cfg pts p hl,
          updateSpans_self, updateSpans_self, hdomeq]
  refine ⟨?_, ?_⟩
  · intro cfg hmem e hfetch
    rw [hkey cfg hmem, hfetch]
    rfl
  · intro cfg hmem pts hfetch hne
    rcases latestPair_latest_of_ne_nil pts hne with ⟨p, hl⟩
    rw [hkey cfg hmem, hfetch, renderOneResult_ok_eq fmtNum dom cfg pts p hl,
      updateSpans_self]
    exact ⟨_, _, rfl⟩

/-- C2 witness: with the NASDAQ series failing and every other series
returning a two-point CSV, the NASDAQ spans keep their previous state while
the S&P 500 spans are rewritten. -/
theorem loadTickerFred_isolation_witness :
    loadTickerFred (fun _ _ => "n")
      (fun id => if id = "NASDAQCOM" then
        ⟨Except.error "down", Except.error "down", Except.error "down"⟩
      else
        ⟨Except.ok ⟨true, 200, "H\n2024-01-01,1\n2024-01-02,2"⟩,
         Except.error "x", Except.error "x"⟩)
      (fun _ => [⟨"old", false, false⟩]) "NASDAQ" = [⟨"old", false, false⟩] ∧
    (∃ text dir, loadTickerFred (fun _ _ => "n")
      (fun id => if id = "NASDAQCOM" then
        ⟨Except.error "down", Except.error "down", Except.error "down"⟩
      else
        ⟨Except.ok ⟨true, 200, "H\n2024-01-01,1\n2024-01-02,2"⟩,
         Except.error "x", Except.error "x"⟩)
      (fun _ => [⟨"old", false, false⟩]) "SP500" =
      [⟨text, decide (dir = some Dir.up), decide (dir = some Dir.down)⟩]) := by
  constructor
  · exact (loadTickerFred_isolation (fun _ _ => "n") _
      (fun _ => [⟨"old", false, false⟩])).1
      { attr := "NASDAQ", fred := "NASDAQCOM", label := "NASDAQ",
        decimals := 0, suffix := none }
      (by decide) "down" rfl
  · have hne : parseFredCsv "H\n2024-01-01,1\n2024-01-02,2" ≠ [] := by
      intro hcontra
      have h2 : (parseFredCsv "H\n2024-01-01,1\n2024-01-02,2").length = 2 := rfl
      rw [hcontra] at h2
      simp at h2
    rcases (loadTickerFred_isolation (fun _ _ => "n")
        (fun id => if id = "NASDAQCOM" then
          ⟨Except.error "down", Except.error "down", Except.error "down"⟩
        else
          ⟨Except.ok ⟨true, 200, "H\n2024-01-01,1\n2024-01-02,2"⟩,
           Except.error "x", Except.error "x"⟩)
        (fun _ => [⟨"old", false, false⟩])).2
        { attr := "SP500", fred := "SP500", label := "S&P 500",
          decimals := 0, suffix := none }
        (by decide) (parseFredCsv "H\n2024-01-01,1\n2024-01-02,2") rfl hne with
      ⟨text, dir, heq⟩
    exact ⟨text, dir, by rw [heq]; rfl⟩
